import Mathlib

/-!
# Verification of the JS-MVC contact manager (remote variant)

Shallow embedding of the contact-management application:
* `Model.js`  — the client-side data layer mirroring the backend,
* `Controller.js` / `View.js` — search handling and initial render,
* `app.js` (server part) — the HTTP routing over the MySQL `contacts` table.

JavaScript strings are modelled as lists of UTF-16 code units (`List Nat`);
JavaScript truthiness on a possibly-missing string field is `none`/empty.
Remote calls are nondeterministic in whether they succeed; the embedding
takes the outcome (`remoteOk` / `dbOk`) as an explicit parameter.
-/

set_option autoImplicit false

/-- A JavaScript string: list of UTF-16 code units. -/
abbrev Str := List Nat

/-- Code units of a Lean string literal (ASCII in all our uses). -/
def strLit (s : String) : Str := s.data.map Char.toNat

/-- The sole entity: `{id, name, email, phone}` (Model.js, app.js). -/
structure Contact where
  id : Str
  name : Str
  email : Str
  phone : Str
deriving Repr, DecidableEq

/-- `Date.now().toString()` (Model.js line 57): decimal representation of
the timestamp `now`, as code units. -/
def natToIdStr (n : Nat) : Str := ((Nat.digits 10 n).reverse).map (· + 48)

/-- Result of a mutating Model operation: the new `this.contacts` and the
argument passed to the change-notification callback by `_commit` (`none`
when the operation failed and `_commit` never ran). -/
structure ModelResult where
  contacts : List Contact
  notified : Option (List Contact)
deriving Repr, DecidableEq

namespace Model

/-- `new Model()` initializes `this.contacts = []` (Model.js line 9). -/
def initContacts : List Contact := []

/-- `Model.addContact(name, email, phone)` (Model.js lines 55-80):
builds `{id: Date.now().toString(), name, email, phone}`, POSTs it;
on `response.ok` pushes it onto `this.contacts` and commits, on failure
the catch block leaves the state untouched. `now` is the ambient
`Date.now()` value, `remoteOk` the outcome of the fetch. -/
def addContact (contacts : List Contact) (now : Nat)
    (name email phone : Str) (remoteOk : Bool) : ModelResult :=
  let contact : Contact := ⟨natToIdStr now, name, email, phone⟩
  if remoteOk then
    let newContacts := contacts ++ [contact]
    ⟨newContacts, some newContacts⟩
  else
    ⟨contacts, none⟩

/-- `Model.editContact(id, name, email, phone)` (Model.js lines 90-120):
PUTs the three fields; on success maps over `this.contacts` replacing the
record whose id matches by `{id: contact.id, ...updatedContact}` and
commits; on failure leaves the state untouched. -/
def editContact (contacts : List Contact) (id name email phone : Str)
    (remoteOk : Bool) : ModelResult :=
  if remoteOk then
    let newContacts := contacts.map fun c =>
      if c.id = id then ⟨c.id, name, email, phone⟩ else c
    ⟨newContacts, some newContacts⟩
  else
    ⟨contacts, none⟩

/-- `Model.deleteContact(id)` (Model.js lines 127-141): DELETEs; on
success filters out the record whose id matches and commits; on failure
leaves the state untouched. -/
def deleteContact (contacts : List Contact) (id : Str)
    (remoteOk : Bool) : ModelResult :=
  if remoteOk then
    let newContacts := contacts.filter fun c => c.id ≠ id
    ⟨newContacts, some newContacts⟩
  else
    ⟨contacts, none⟩

/-- `Model.fetchContacts()` (Model.js lines 35-46): GETs the collection;
on success replaces `this.contacts` with the response and commits. -/
def fetchContacts (contacts remote : List Contact)
    (remoteOk : Bool) : ModelResult :=
  if remoteOk then ⟨remote, some remote⟩ else ⟨contacts, none⟩

end Model

/-- The Controller constructor's initial render (Controller.js line 44):
`this.onContactListChanged(this.model.contacts)` passes the Model's
current collection to `view.displayContacts`; it returns the list the
View renders. No `fetchContacts` call occurs anywhere in the client. -/
def controllerInitRender (modelContacts : List Contact) : List Contact :=
  modelContacts

/-! ## Search (Controller.js `handleSearchContact`, View.js `bindSearchContact`) -/

/-- ASCII lowering of one code unit, the effect of
`String.prototype.toLowerCase` on A-Z (other code points unchanged in the
ASCII range the app works with). -/
def toLowerCode (c : Nat) : Nat := if 65 ≤ c ∧ c ≤ 90 then c + 32 else c

/-- `s.toLowerCase()`. -/
def toLowerStr (s : Str) : Str := s.map toLowerCode

/-- JavaScript whitespace recognised by `trim` (ASCII whitespace and
no-break space). -/
def isJsSpace (c : Nat) : Bool := c = 32 || (9 ≤ c && c ≤ 13) || c = 160

/-- `s.trim()`: strip whitespace from both ends. -/
def jsTrim (s : Str) : Str :=
  ((s.dropWhile isJsSpace).reverse.dropWhile isJsSpace).reverse

/-- `haystack.includes(needle)`: some contiguous run of `haystack` equals
`needle` (always true for the empty needle, as in JavaScript). -/
def strIncludes : Str → Str → Bool
  | [], needle => needle.isEmpty
  | c :: t, needle => needle.isPrefixOf (c :: t) || strIncludes t needle

/-- The filter body of `Controller.handleSearchContact` (Controller.js
lines 110-114): `contact.name.toLowerCase().includes(searchTerm) ||
contact.email.toLowerCase().includes(searchTerm) ||
contact.phone.includes(searchTerm)`. -/
def searchMatches (searchTerm : Str) (c : Contact) : Bool :=
  strIncludes (toLowerStr c.name) searchTerm ||
    strIncludes (toLowerStr c.email) searchTerm ||
    strIncludes c.phone searchTerm

/-- `Controller.handleSearchContact` (Controller.js lines 108-119): filter
the Model's collection and hand the result to `view.displayContacts`;
returns the rendered list. -/
def handleSearchContact (contacts : List Contact) (searchTerm : Str) :
    List Contact :=
  contacts.filter (searchMatches searchTerm)

/-- `View.bindSearchContact` (View.js lines 301-307) normalises the raw
input: `e.target.value.toLowerCase().trim()`. -/
def viewSearchTerm (raw : Str) : Str := jsTrim (toLowerStr raw)

/-- The search data flow for one input event: the View normalises the raw
input, the Controller filters and renders; the Model's collection is
returned unchanged (the handler only reads `this.model.contacts`). -/
def searchPipeline (contacts : List Contact) (raw : Str) :
    List Contact × List Contact :=
  (handleSearchContact contacts (viewSearchTerm raw), contacts)

/-- Spec-side predicate, following the spec's words: "filtering the
Model's in-memory collection by case-insensitive substring match against
name, email, or raw phone string". Case-insensitive match of `term`
against a field lowers both sides. -/
def specSearchMatches (term : Str) (c : Contact) : Bool :=
  strIncludes (toLowerStr c.name) (toLowerStr term) ||
    strIncludes (toLowerStr c.email) (toLowerStr term) ||
    strIncludes c.phone term

/-! ## HTTP API server (app.js lines 49-186) -/

/-- `'/api/contacts'`. -/
def apiPath : Str := strLit "/api/contacts"

/-- `'/api/contacts/'`, the prefix tested by `pathname.startsWith`. -/
def apiPathSlash : Str := strLit "/api/contacts/"

/-- Outcome of `getRequestBody` (app.js lines 67-82): the promise rejects
on malformed JSON, otherwise yields the parsed object, each of the four
relevant keys possibly absent. -/
inductive ReqBody where
  | malformed : ReqBody
  | fields (id name email phone : Option Str) : ReqBody
deriving Repr, DecidableEq

/-- JavaScript falsiness of a destructured string field (`!id`, `!name`,
...): the key is absent (`undefined`) or the string is empty. -/
def isFalsyField : Option Str → Bool
  | none => true
  | some s => s.isEmpty

/-- `path.split(sep)`: chunks between separators, empty chunks kept,
`[""]` for the empty string — mirrors `String.prototype.split` with a
single-character separator. -/
def jsSplit (sep : Nat) : Str → List Str
  | [] => [[]]
  | c :: rest =>
    let r := jsSplit sep rest
    if c = sep then [] :: r
    else (c :: r.headD []) :: r.tail

/-- `pathname.split('/').pop()` (app.js line 132). -/
def lastSegment (sep : Nat) (s : Str) : Str := (jsSplit sep s).getLastD []

/-- What one request produces: the response status, the table afterwards,
whether any SQL statement was executed, and whether the request body was
parsed (i.e. `getRequestBody` was invoked). -/
structure ServerResult where
  status : Nat
  db : List Contact
  queried : Bool
  parsed : Bool
deriving Repr, DecidableEq

/-- The request handler of app.js lines 49-186. `db` is the `contacts`
table, `dbOk` whether the database is reachable (a failing `pool.query`
reports an error). `affectedRows` of DELETE/UPDATE is modelled as the
number of rows whose id matches; the claims below use it only where no
row matches, where it is 0 under either MySQL counting mode. -/
def handleRequest (db : List Contact) (dbOk : Bool) (method path : Str)
    (body : ReqBody) : ServerResult :=
  if method = strLit "OPTIONS" then ⟨204, db, false, false⟩
  else if path = apiPath then
    if method = strLit "GET" then
      if dbOk then ⟨200, db, true, false⟩ else ⟨500, db, true, false⟩
    else if method = strLit "POST" then
      match body with
      | .malformed => ⟨400, db, false, true⟩
      | .fields i n e p =>
        if isFalsyField i || isFalsyField n || isFalsyField e || isFalsyField p then
          ⟨400, db, false, true⟩
        else if dbOk then
          ⟨201, db ++ [⟨i.getD [], n.getD [], e.getD [], p.getD []⟩], true, true⟩
        else ⟨500, db, true, true⟩
    else ⟨405, db, false, false⟩
  else if apiPathSlash.isPrefixOf path then
    let id := lastSegment 47 path
    if id = [] then ⟨400, db, false, false⟩
    else if method = strLit "DELETE" then
      if dbOk then
        if (db.filter fun c => c.id = id).length = 0 then ⟨404, db, true, false⟩
        else ⟨200, db.filter fun c => c.id ≠ id, true, false⟩
      else ⟨500, db, true, false⟩
    else if method = strLit "PUT" then
      match body with
      | .malformed => ⟨400, db, false, true⟩
      | .fields _ n e p =>
        if isFalsyField n || isFalsyField e || isFalsyField p then
          ⟨400, db, false, true⟩
        else if dbOk then
          if (db.filter fun c => c.id = id).length = 0 then ⟨404, db, true, true⟩
          else ⟨200,
            db.map (fun c =>
              if c.id = id then ⟨c.id, n.getD [], e.getD [], p.getD []⟩ else c),
            true, true⟩
        else ⟨500, db, true, true⟩
    else ⟨405, db, false, false⟩
  else ⟨404, db, false, false⟩

/-- `Response.ok` of the Fetch API: status in the 2xx range. -/
def respOk (status : Nat) : Bool := 200 ≤ status && status < 300

/-- `Model.editContact` talking to the server: the PUT carries
`{name, email, phone}` (no id key), the path is `/api/contacts/` + id,
and the Model mirrors the change only when `response.ok`. -/
def remoteEditPipeline (db localContacts : List Contact)
    (id name email phone : Str) : ServerResult × ModelResult :=
  let r := handleRequest db true (strLit "PUT") (apiPathSlash ++ id)
      (ReqBody.fields none (some name) (some email) (some phone))
  (r, Model.editContact localContacts id name email phone (respOk r.status))

/-- `Model.deleteContact` talking to the server: the DELETE carries no
body (parsed as `{}` if it were read). -/
def remoteDeletePipeline (db localContacts : List Contact) (id : Str) :
    ServerResult × ModelResult :=
  let r := handleRequest db true (strLit "DELETE") (apiPathSlash ++ id)
      (ReqBody.fields none none none none)
  (r, Model.deleteContact localContacts id (respOk r.status))

/-! ## Helper lemmas -/

/-- Decimal representation of distinct timestamps is distinct. -/
theorem natToIdStr_injective : Function.Injective natToIdStr := by
  intro a b h
  have h1 : (Nat.digits 10 a).reverse = (Nat.digits 10 b).reverse :=
    List.map_injective_iff.mpr (fun x y hxy => by omega) h
  exact Nat.digits.injective 10 (List.reverse_injective h1)

/-- C1 counterexample: `addContact` performs no uniqueness check on the
generated id. If a contact created at millisecond 5 is already in the
collection and a second add (all fields non-empty) succeeds in the same
millisecond, the generated id equals an existing id, refuting the claim's
distinctness conjunct (the length conjunct holds). -/
theorem addContact_id_collision :
    (strLit "Bob" ≠ ([] : Str) ∧ strLit "b@x.com" ≠ ([] : Str) ∧
      strLit "556" ≠ ([] : Str)) ∧
    (Model.addContact [⟨natToIdStr 5, strLit "Ana", strLit "a@x.com", strLit "555"⟩]
        5 (strLit "Bob") (strLit "b@x.com") (strLit "556") true).contacts =
      [⟨natToIdStr 5, strLit "Ana", strLit "a@x.com", strLit "555"⟩,
       ⟨natToIdStr 5, strLit "Bob", strLit "b@x.com", strLit "556"⟩] ∧
    ¬ (∀ c ∈ [(⟨natToIdStr 5, strLit "Ana", strLit "a@x.com", strLit "555"⟩ : Contact)],
        c.id ≠ natToIdStr 5) := by
  refine ⟨⟨by decide, by decide, by decide⟩, rfl, fun h => h _ (List.mem_singleton.mpr rfl) rfl⟩

/-- C1 (amended): a successful `addContact` with non-empty fields grows the
collection by exactly one; the generated id is distinct from every existing
id provided every existing id was generated at a strictly earlier
timestamp (the code itself checks nothing — same-millisecond ids collide). -/
theorem addContact_succeeds_length_and_fresh_id
    (contacts : List Contact) (now : Nat) (name email phone : Str)
    (hname : name ≠ []) (hemail : email ≠ []) (hphone : phone ≠ [])
    (hmono : ∀ c ∈ contacts, ∃ m, m < now ∧ c.id = natToIdStr m) :
    (Model.addContact contacts now name email phone true).contacts.length
        = contacts.length + 1 ∧
    ∀ c ∈ contacts, c.id ≠ natToIdStr now := by
  refine ⟨by simp [Model.addContact], fun c hc => ?_⟩
  obtain ⟨m, hm, hid⟩ := hmono c hc
  rw [hid]
  intro h
  exact absurd (natToIdStr_injective h) (by omega)

/-- C1 witness: a concrete successful add at timestamp 5 over a history
generated at timestamp 3. -/
theorem addContact_succeeds_length_and_fresh_id_witness :
    (Model.addContact [⟨natToIdStr 3, strLit "Ana", strLit "a@x.com", strLit "555"⟩]
        5 (strLit "Bob") (strLit "b@x.com") (strLit "556") true).contacts.length = 2 ∧
    ∀ c ∈ [(⟨natToIdStr 3, strLit "Ana", strLit "a@x.com", strLit "555"⟩ : Contact)],
      c.id ≠ natToIdStr 5 :=
  addContact_succeeds_length_and_fresh_id _ 5 _ _ _ (by decide) (by decide) (by decide)
    (fun c hc => ⟨3, by omega, by rw [List.mem_singleton.mp hc]⟩)

/-- C2: every mutating Model operation leaves `this.contacts` untouched and
fires no change notification when the remote call fails, and notifies with
exactly the full new collection after a success. -/
theorem mutation_failure_no_change_success_notifies
    (contacts : List Contact) (now : Nat) (id name email phone : Str) :
    Model.addContact contacts now name email phone false = ⟨contacts, none⟩ ∧
    Model.editContact contacts id name email phone false = ⟨contacts, none⟩ ∧
    Model.deleteContact contacts id false = ⟨contacts, none⟩ ∧
    (Model.addContact contacts now name email phone true).notified
        = some (Model.addContact contacts now name email phone true).contacts ∧
    (Model.editContact contacts id name email phone true).notified
        = some (Model.editContact contacts id name email phone true).contacts ∧
    (Model.deleteContact contacts id true).notified
        = some (Model.deleteContact contacts id true).contacts :=
  ⟨rfl, rfl, rfl, rfl, rfl, rfl⟩

/-- C3: a successful edit on an id present in the collection preserves the
length and, position by position, replaces the fields of each matching
record while keeping its id, and leaves every non-matching record
unchanged. -/
theorem editContact_success_frame
    (contacts : List Contact) (id name email phone : Str)
    (hmem : id ∈ contacts.map Contact.id) :
    (Model.editContact contacts id name email phone true).contacts.length
        = contacts.length ∧
    ∀ i : Nat, ∀ c : Contact, contacts[i]? = some c →
      (c.id = id →
        (Model.editContact contacts id name email phone true).contacts[i]?
          = some ⟨c.id, name, email, phone⟩) ∧
      (c.id ≠ id →
        (Model.editContact contacts id name email phone true).contacts[i]?
          = some c) := by
  refine ⟨by simp [Model.editContact], fun i c hc => ⟨fun hid => ?_, fun hid => ?_⟩⟩
  · simp [Model.editContact, List.getElem?_map, hc, hid]
  · simp [Model.editContact, List.getElem?_map, hc, hid]

/-- C3 witness: editing id "1" in a concrete two-contact collection. -/
theorem editContact_success_frame_witness :
    (Model.editContact [⟨strLit "1", strLit "Ana", strLit "a@x.com", strLit "555"⟩,
        ⟨strLit "2", strLit "Bob", strLit "b@x.com", strLit "556"⟩]
      (strLit "1") (strLit "Ana B.") (strLit "a@x.com") (strLit "555")
      true).contacts.length = 2 ∧
    (Model.editContact [⟨strLit "1", strLit "Ana", strLit "a@x.com", strLit "555"⟩,
        ⟨strLit "2", strLit "Bob", strLit "b@x.com", strLit "556"⟩]
      (strLit "1") (strLit "Ana B.") (strLit "a@x.com") (strLit "555")
      true).contacts[1]? = some ⟨strLit "2", strLit "Bob", strLit "b@x.com", strLit "556"⟩ := by
  have h := editContact_success_frame
    [⟨strLit "1", strLit "Ana", strLit "a@x.com", strLit "555"⟩,
     ⟨strLit "2", strLit "Bob", strLit "b@x.com", strLit "556"⟩]
    (strLit "1") (strLit "Ana B.") (strLit "a@x.com") (strLit "555") (by decide)
  exact ⟨h.1, (h.2 1 ⟨strLit "2", strLit "Bob", strLit "b@x.com", strLit "556"⟩
    (by decide)).2 (by decide)⟩

/-- `split` never yields an empty chunk list. -/
theorem jsSplit_ne_nil (sep : Nat) (s : Str) : jsSplit sep s ≠ [] := by
  cases s with
  | nil => simp [jsSplit]
  | cons c t =>
    simp only [jsSplit]
    split <;> simp

/-- Splitting a string that does not contain the separator yields the
string itself as the single chunk. -/
theorem jsSplit_of_not_mem (sep : Nat) (s : Str) (h : sep ∉ s) :
    jsSplit sep s = [s] := by
  induction s with
  | nil => rfl
  | cons c t ih =>
    simp only [List.mem_cons, not_or] at h
    simp only [jsSplit, ih h.2]
    rw [if_neg fun hc => h.1 hc.symm]
    rfl

/-- A string containing the separator splits into at least two chunks. -/
theorem jsSplit_length_of_mem (sep : Nat) (s : Str) (h : sep ∈ s) :
    2 ≤ (jsSplit sep s).length := by
  induction s with
  | nil => cases h
  | cons c t ih =>
    simp only [jsSplit]
    by_cases hc : c = sep
    · rw [if_pos hc]
      have h1 : 0 < (jsSplit sep t).length :=
        List.length_pos.mpr (jsSplit_ne_nil sep t)
      simp only [List.length_cons]
      omega
    · rw [if_neg hc]
      have hmem : sep ∈ t := by
        rcases List.mem_cons.mp h with h1 | h1
        · exact absurd h1.symm hc
        · exact h1
      have h2 := ih hmem
      have h3 := List.length_tail (jsSplit sep t)
      simp only [List.length_cons]
      omega

/-- `getLastD` ignores its default and head once the tail is nonempty. -/
theorem getLastD_cons_of_ne_nil (a : Str) (l : List Str) (h : l ≠ [])
    (d : Str) : (a :: l).getLastD d = l.getLastD d := by
  cases l with
  | nil => exact absurd rfl h
  | cons b m => simp [List.getLastD_cons]

/-- Equation: splitting at a leading separator. -/
theorem jsSplit_cons_sep (sep : Nat) (t : Str) :
    jsSplit sep (sep :: t) = [] :: jsSplit sep t := by
  simp [jsSplit]

/-- Equation: splitting at a leading non-separator. -/
theorem jsSplit_cons_ne (sep c : Nat) (t : Str) (h : ¬ c = sep) :
    jsSplit sep (c :: t)
      = (c :: (jsSplit sep t).headD []) :: (jsSplit sep t).tail := by
  simp [jsSplit, h]

/-- `(xs ++ sep :: ys).split(sep).pop()` is `ys` when `ys` has no
separator. -/
theorem lastSegment_append (sep : Nat) (xs ys : Str) (h : sep ∉ ys) :
    lastSegment sep (xs ++ sep :: ys) = ys := by
  induction xs with
  | nil =>
    simp only [List.nil_append, lastSegment, jsSplit_cons_sep,
      jsSplit_of_not_mem sep ys h]
    simp [List.getLastD_cons]
  | cons c xs ih =>
    by_cases hc : c = sep
    · subst hc
      simp only [List.cons_append, lastSegment, jsSplit_cons_sep]
      rw [List.getLastD_cons]
      exact ih
    · simp only [List.cons_append, lastSegment, jsSplit_cons_ne sep c _ hc]
      have hr2 : 2 ≤ (jsSplit sep (xs ++ sep :: ys)).length :=
        jsSplit_length_of_mem sep _ (by simp)
      have hrt : (jsSplit sep (xs ++ sep :: ys)).tail ≠ [] := by
        intro hnil
        have h3 := List.length_tail (jsSplit sep (xs ++ sep :: ys))
        rw [hnil] at h3
        simp at h3
        omega
      rw [getLastD_cons_of_ne_nil _ _ hrt]
      have hsplit : (jsSplit sep (xs ++ sep :: ys)).getLastD []
          = (jsSplit sep (xs ++ sep :: ys)).tail.getLastD [] := by
        cases hq : jsSplit sep (xs ++ sep :: ys) with
        | nil => exact absurd hq (jsSplit_ne_nil sep _)
        | cons a l =>
          cases l with
          | nil =>
            rw [hq] at hrt
            exact absurd rfl hrt
          | cons b m => simp [List.getLastD_cons]
      rw [← hsplit]
      exact ih

/-- Appending an id to `'/api/contacts/'` never gives `'/api/contacts'`. -/
theorem append_id_ne_apiPath (id : Str) : apiPathSlash ++ id ≠ apiPath := by
  intro hcontra
  have hlen := congrArg List.length hcontra
  have h1 : apiPathSlash.length = 14 := by decide
  have h2 : apiPath.length = 13 := by decide
  rw [List.length_append, h1, h2] at hlen
  omega

/-- `pathname.startsWith('/api/contacts/')` holds on `'/api/contacts/' + id`. -/
theorem isPrefixOf_apiPathSlash_append (id : Str) :
    apiPathSlash.isPrefixOf (apiPathSlash ++ id) = true :=
  List.isPrefixOf_iff_prefix.mpr (List.prefix_append _ _)

/-- Extracting the id back out of `'/api/contacts/' + id` when the id has
no slash. -/
theorem lastSegment_apiPathSlash_append (id : Str) (h : 47 ∉ id) :
    lastSegment 47 (apiPathSlash ++ id) = id := by
  have hsplit : apiPathSlash ++ id = strLit "/api/contacts" ++ 47 :: id := by
    have h1 : apiPathSlash = strLit "/api/contacts" ++ [47] := by decide
    rw [h1, List.append_assoc]
    rfl
  rw [hsplit]
  exact lastSegment_append 47 _ id h

/-- Lowering is idempotent on a single code unit. -/
theorem toLowerCode_idem (c : Nat) :
    toLowerCode (toLowerCode c) = toLowerCode c := by
  simp only [toLowerCode]
  split_ifs <;> omega

/-- A string all of whose code units are fixed by lowering is fixed. -/
theorem toLowerStr_fixed {s : Str} (h : ∀ c ∈ s, toLowerCode c = c) :
    toLowerStr s = s := by
  induction s with
  | nil => rfl
  | cons a t ih =>
    simp only [toLowerStr, List.map_cons] at *
    rw [h a (List.mem_cons_self a t), ih fun c hc => h c (List.mem_cons_of_mem a hc)]

/-- Trimming only removes code units, it introduces none. -/
theorem mem_of_mem_jsTrim {c : Nat} {s : Str} (h : c ∈ jsTrim s) : c ∈ s := by
  simp only [jsTrim, List.mem_reverse] at h
  have h2 : c ∈ (s.dropWhile isJsSpace).reverse :=
    (List.dropWhile_sublist _).subset h
  rw [List.mem_reverse] at h2
  exact (List.dropWhile_sublist _).subset h2

/-- The term handed to the Controller by the View binding is already
lowercase. -/
theorem viewSearchTerm_lower_fixed (raw : Str) :
    toLowerStr (viewSearchTerm raw) = viewSearchTerm raw := by
  apply toLowerStr_fixed
  intro c hc
  have h1 : c ∈ toLowerStr raw := mem_of_mem_jsTrim hc
  obtain ⟨x, _, rfl⟩ := List.mem_map.mp h1
  exact toLowerCode_idem x

/-- On a term fixed by lowering, the Controller's filter body coincides
with the spec's case-insensitive predicate. -/
theorem searchMatches_eq_spec {t : Str} (ht : toLowerStr t = t)
    (c : Contact) : searchMatches t c = specSearchMatches t c := by
  simp [searchMatches, specSearchMatches, ht]

/-- Every string includes the empty string. -/
theorem strIncludes_nil (h : Str) : strIncludes h [] = true := by
  cases h <;> simp [strIncludes, List.isPrefixOf]

/-- A filter over a list with a unique satisfying element (appearing once)
is that singleton. -/
theorem filter_eq_singleton_of_unique {p : Contact → Bool}
    {l : List Contact} {a : Contact} (ha : a ∈ l) (hpa : p a = true)
    (hcount : l.count a = 1) (huniq : ∀ b ∈ l, p b = true → b = a) :
    l.filter p = [a] := by
  induction l with
  | nil => cases ha
  | cons x xs ih =>
    by_cases hxa : x = a
    · subst hxa
      have hcx : xs.count x = 0 := by
        rw [List.count_cons_self] at hcount
        omega
      have hnx : x ∉ xs := fun hmem => by
        have := List.count_pos_iff.mpr hmem
        omega
      rw [List.filter_cons, if_pos hpa]
      suffices hs : xs.filter p = [] by rw [hs]
      refine List.filter_eq_nil_iff.mpr fun b hb hpb => ?_
      exact hnx (huniq b (List.mem_cons_of_mem _ hb) hpb ▸ hb)
    · have hax : a ∈ xs := by
        rcases List.mem_cons.mp ha with h1 | h1
        · exact absurd h1.symm hxa
        · exact h1
      have hpx : p x = false := by
        rcases Bool.eq_false_or_eq_true (p x) with h1 | h1
        · exact absurd (huniq x (List.mem_cons_self x xs) h1) hxa
        · exact h1
      have hcount' : xs.count a = 1 := by
        rw [List.count_cons_of_ne (fun h1 => hxa h1.symm)] at hcount
        exact hcount
      rw [List.filter_cons, if_neg (by simp [hpx])]
      exact ih hax hcount' fun b hb hpb => huniq b (List.mem_cons_of_mem _ hb) hpb

/-- A present non-empty string field is truthy. -/
theorem isFalsyField_some_ne {s : Str} (h : s ≠ []) :
    isFalsyField (some s) = false := by
  cases s with
  | nil => exact absurd rfl h
  | cons a t => rfl

/-- C4: an edit or a delete on an id (non-empty, slash-free, with the
well-formed fields the View guarantees) that matches no row: the server
answers 404 without touching the table, and the Model, seeing a non-ok
response, leaves its in-memory collection unchanged and fires no
notification. -/
theorem unknown_id_edit_delete_404
    (db localContacts : List Contact) (id name email phone : Str)
    (hid : id ≠ []) (hslash : 47 ∉ id)
    (hname : name ≠ []) (hemail : email ≠ []) (hphone : phone ≠ [])
    (habsent : ∀ c ∈ db, c.id ≠ id) :
    remoteEditPipeline db localContacts id name email phone
      = (⟨404, db, true, true⟩, ⟨localContacts, none⟩) ∧
    remoteDeletePipeline db localContacts id
      = (⟨404, db, true, false⟩, ⟨localContacts, none⟩) := by
  have hfilter : (db.filter fun c => decide (c.id = id)) = [] :=
    List.filter_eq_nil_iff.mpr fun c hc => by simp [habsent c hc]
  have hpath_ne := append_id_ne_apiPath id
  have hpre := isPrefixOf_apiPathSlash_append id
  have hlast := lastSegment_apiPathSlash_append id hslash
  constructor
  · have hput : handleRequest db true (strLit "PUT") (apiPathSlash ++ id)
        (ReqBody.fields none (some name) (some email) (some phone))
        = ⟨404, db, true, true⟩ := by
      simp [handleRequest, hlast,
        (by decide : ¬ strLit "PUT" = strLit "OPTIONS"),
        (by decide : ¬ strLit "PUT" = strLit "DELETE"),
        hpath_ne, hpre, hid, isFalsyField_some_ne hname,
        isFalsyField_some_ne hemail, isFalsyField_some_ne hphone, hfilter]
    simp only [remoteEditPipeline, hput]
    rfl
  · have hdel : handleRequest db true (strLit "DELETE") (apiPathSlash ++ id)
        (ReqBody.fields none none none none)
        = ⟨404, db, true, false⟩ := by
      simp [handleRequest, hlast,
        (by decide : ¬ strLit "DELETE" = strLit "OPTIONS"),
        hpath_ne, hpre, hid, hfilter]
    simp only [remoteDeletePipeline, hdel]
    rfl

/-- C4 witness: editing and deleting id "1" against a table holding only
id "2". -/
theorem unknown_id_edit_delete_404_witness :
    remoteEditPipeline [⟨strLit "2", strLit "Bob", strLit "b@x.com", strLit "556"⟩]
        [⟨strLit "2", strLit "Bob", strLit "b@x.com", strLit "556"⟩]
        (strLit "1") (strLit "Ana") (strLit "a@x.com") (strLit "555")
      = (⟨404, [⟨strLit "2", strLit "Bob", strLit "b@x.com", strLit "556"⟩], true, true⟩,
         ⟨[⟨strLit "2", strLit "Bob", strLit "b@x.com", strLit "556"⟩], none⟩) ∧
    remoteDeletePipeline [⟨strLit "2", strLit "Bob", strLit "b@x.com", strLit "556"⟩]
        [⟨strLit "2", strLit "Bob", strLit "b@x.com", strLit "556"⟩] (strLit "1")
      = (⟨404, [⟨strLit "2", strLit "Bob", strLit "b@x.com", strLit "556"⟩], true, false⟩,
         ⟨[⟨strLit "2", strLit "Bob", strLit "b@x.com", strLit "556"⟩], none⟩) :=
  unknown_id_edit_delete_404
    [⟨strLit "2", strLit "Bob", strLit "b@x.com", strLit "556"⟩]
    [⟨strLit "2", strLit "Bob", strLit "b@x.com", strLit "556"⟩]
    (strLit "1") (strLit "Ana") (strLit "a@x.com") (strLit "555")
    (by decide) (by decide) (by decide) (by decide) (by decide) (by decide)

/-- C6: a POST missing any of id, name, email, phone, and a PUT missing
any of name, email, phone, are answered 400 with no database statement
executed and the table unchanged. -/
theorem missing_field_400_no_query
    (db : List Contact) (dbOk : Bool) (id : Str)
    (i n e p : Option Str) (i2 n2 e2 p2 : Option Str)
    (hid : id ≠ []) (hslash : 47 ∉ id)
    (hpost : i = none ∨ n = none ∨ e = none ∨ p = none)
    (hput : n2 = none ∨ e2 = none ∨ p2 = none) :
    handleRequest db dbOk (strLit "POST") apiPath (ReqBody.fields i n e p)
      = ⟨400, db, false, true⟩ ∧
    handleRequest db dbOk (strLit "PUT") (apiPathSlash ++ id)
        (ReqBody.fields i2 n2 e2 p2) = ⟨400, db, false, true⟩ := by
  constructor
  · have hf : (isFalsyField i || isFalsyField n || isFalsyField e
        || isFalsyField p) = true := by
      rcases hpost with rfl | rfl | rfl | rfl <;> simp [isFalsyField]
    simp [handleRequest, hf,
      (by decide : ¬ strLit "POST" = strLit "OPTIONS"),
      (by decide : ¬ strLit "POST" = strLit "GET")]
  · have hf : (isFalsyField n2 || isFalsyField e2 || isFalsyField p2) = true := by
      rcases hput with rfl | rfl | rfl <;> simp [isFalsyField]
    simp [handleRequest, hf, lastSegment_apiPathSlash_append id hslash,
      (by decide : ¬ strLit "PUT" = strLit "OPTIONS"),
      (by decide : ¬ strLit "PUT" = strLit "DELETE"),
      append_id_ne_apiPath id, isPrefixOf_apiPathSlash_append id, hid]

/-- C6 witness: a POST with no name key and a PUT with no phone key. -/
theorem missing_field_400_no_query_witness :
    handleRequest [] true (strLit "POST") apiPath
        (ReqBody.fields (some (strLit "1")) none (some (strLit "a@x.com"))
          (some (strLit "555"))) = ⟨400, [], false, true⟩ ∧
    handleRequest [] true (strLit "PUT") (apiPathSlash ++ strLit "1")
        (ReqBody.fields none (some (strLit "Ana")) (some (strLit "a@x.com"))
          none) = ⟨400, [], false, true⟩ :=
  missing_field_400_no_query [] true (strLit "1")
    (some (strLit "1")) none (some (strLit "a@x.com")) (some (strLit "555"))
    none (some (strLit "Ana")) (some (strLit "a@x.com")) none
    (by decide) (by decide) (Or.inr (Or.inl rfl)) (Or.inr (Or.inr rfl))

/-- C8 counterexample: two requests outside the five listed route shapes
that are not answered 404 — `PATCH /api/contacts` gets 405
(`Method not allowed`), and `DELETE /api/contacts/` (trailing slash, so
the extracted id is empty) gets 400 (`Contact ID required`). -/
theorem unlisted_routes_not_404 :
    (handleRequest [] true (strLit "PATCH") apiPath
      (ReqBody.fields none none none none)).status = 405 ∧
    ¬ (handleRequest [] true (strLit "PATCH") apiPath
      (ReqBody.fields none none none none)).status = 404 ∧
    (handleRequest [] true (strLit "DELETE") (strLit "/api/contacts/")
      (ReqBody.fields none none none none)).status = 400 ∧
    ¬ (handleRequest [] true (strLit "DELETE") (strLit "/api/contacts/")
      (ReqBody.fields none none none none)).status = 404 := by decide

/-- C8 (amended): OPTIONS always yields 204; a request whose path is
neither `/api/contacts` nor under `/api/contacts/` yields 404; an
unlisted method on either known path shape yields 405 (not 404); and a
path under `/api/contacts/` whose extracted id is empty yields 400
(not 404). -/
theorem routing_statuses
    (db : List Contact) (dbOk : Bool) (method path : Str) (body : ReqBody) :
    (method = strLit "OPTIONS" →
      (handleRequest db dbOk method path body).status = 204) ∧
    (¬ method = strLit "OPTIONS" → ¬ path = apiPath →
      apiPathSlash.isPrefixOf path = false →
      (handleRequest db dbOk method path body).status = 404) ∧
    (¬ method = strLit "OPTIONS" → ¬ method = strLit "GET" →
      ¬ method = strLit "POST" → path = apiPath →
      (handleRequest db dbOk method path body).status = 405) ∧
    (¬ method = strLit "OPTIONS" → ¬ method = strLit "DELETE" →
      ¬ method = strLit "PUT" → ¬ path = apiPath →
      apiPathSlash.isPrefixOf path = true → ¬ lastSegment 47 path = [] →
      (handleRequest db dbOk method path body).status = 405) ∧
    (¬ method = strLit "OPTIONS" → ¬ path = apiPath →
      apiPathSlash.isPrefixOf path = true → lastSegment 47 path = [] →
      (handleRequest db dbOk method path body).status = 400) := by
  refine ⟨fun h1 => by simp [handleRequest, h1],
    fun h1 h2 h3 => by simp [handleRequest, h1, h2, h3],
    fun h1 h2 h3 h4 => by simp [handleRequest, h1, h2, h3, h4],
    fun h1 h2 h3 h4 h5 h6 => by simp [handleRequest, h1, h2, h3, h4, h5, h6],
    fun h1 h2 h3 h4 => by simp [handleRequest, h1, h2, h3, h4]⟩

/-- C8 witness: one concrete request per routing case. -/
theorem routing_statuses_witness :
    (handleRequest [] true (strLit "OPTIONS") (strLit "/foo")
      ReqBody.malformed).status = 204 ∧
    (handleRequest [] true (strLit "GET") (strLit "/foo")
      ReqBody.malformed).status = 404 ∧
    (handleRequest [] true (strLit "PUT") apiPath
      ReqBody.malformed).status = 405 ∧
    (handleRequest [] true (strLit "GET") (strLit "/api/contacts/9")
      ReqBody.malformed).status = 405 ∧
    (handleRequest [] true (strLit "PUT") (strLit "/api/contacts/")
      ReqBody.malformed).status = 400 :=
  ⟨(routing_statuses [] true (strLit "OPTIONS") (strLit "/foo")
      ReqBody.malformed).1 rfl,
    (routing_statuses [] true (strLit "GET") (strLit "/foo")
      ReqBody.malformed).2.1 (by decide) (by decide) (by decide),
    (routing_statuses [] true (strLit "PUT") apiPath
      ReqBody.malformed).2.2.1 (by decide) (by decide) (by decide) rfl,
    (routing_statuses [] true (strLit "GET") (strLit "/api/contacts/9")
      ReqBody.malformed).2.2.2.1 (by decide) (by decide) (by decide)
      (by decide) (by decide) (by decide),
    (routing_statuses [] true (strLit "PUT") (strLit "/api/contacts/")
      ReqBody.malformed).2.2.2.2 (by decide) (by decide) (by decide)
      (by decide)⟩

/-- C9 counterexample: a GET to `/api/contacts` carrying a malformed JSON
body is answered 200 and its body is never parsed — routing runs first and
only the POST and PUT branches invoke `getRequestBody`. -/
theorem malformed_body_get_200 :
    (handleRequest [] true (strLit "GET") apiPath ReqBody.malformed).status = 200 ∧
    (handleRequest [] true (strLit "GET") apiPath ReqBody.malformed).parsed = false := by
  decide

/-- C9 (amended): the body is parsed only inside the POST `/api/contacts`
and PUT `/api/contacts/{id}` branches, after routing; on those two routes
a malformed JSON body is answered 400 with no database statement. -/
theorem body_parsed_only_in_post_put
    (db : List Contact) (dbOk : Bool) (method path : Str) (body : ReqBody) :
    ((handleRequest db dbOk method path body).parsed = true →
      (method = strLit "POST" ∧ path = apiPath) ∨
      (method = strLit "PUT" ∧ apiPathSlash.isPrefixOf path = true ∧
        ¬ path = apiPath ∧ ¬ lastSegment 47 path = [])) ∧
    (method = strLit "POST" → path = apiPath → body = ReqBody.malformed →
      handleRequest db dbOk method path body = ⟨400, db, false, true⟩) ∧
    (method = strLit "PUT" → apiPathSlash.isPrefixOf path = true →
      ¬ path = apiPath → ¬ lastSegment 47 path = [] →
      body = ReqBody.malformed →
      handleRequest db dbOk method path body = ⟨400, db, false, true⟩) := by
  refine ⟨?_, ?_, ?_⟩
  · intro hp
    by_cases h1 : method = strLit "OPTIONS"
    · simp [handleRequest, h1] at hp
    by_cases h2 : path = apiPath
    · by_cases h3 : method = strLit "GET"
      · cases dbOk <;>
          simp [handleRequest, h1, h2, h3,
            (by decide : ¬ strLit "GET" = strLit "OPTIONS")] at hp
      by_cases h4 : method = strLit "POST"
      · exact Or.inl ⟨h4, h2⟩
      · simp [handleRequest, h1, h2, h3, h4] at hp
    · by_cases h5 : apiPathSlash.isPrefixOf path = true
      · by_cases h6 : lastSegment 47 path = []
        · simp [handleRequest, h1, h2, h5, h6] at hp
        by_cases h7 : method = strLit "DELETE"
        · cases dbOk <;>
            simp [handleRequest, h1, h2, h5, h6, h7,
              (by decide : ¬ strLit "DELETE" = strLit "OPTIONS"),
              apply_ite ServerResult.parsed] at hp
        by_cases h8 : method = strLit "PUT"
        · exact Or.inr ⟨h8, h5, h2, h6⟩
        · simp [handleRequest, h1, h2, h5, h6, h7, h8] at hp
      · have h5' : apiPathSlash.isPrefixOf path = false := by
          revert h5
          cases apiPathSlash.isPrefixOf path <;> simp
        simp [handleRequest, h1, h2, h5'] at hp
  · intro h1 h2 h3
    subst h1; subst h2; subst h3
    simp [handleRequest,
      (by decide : ¬ strLit "POST" = strLit "OPTIONS"),
      (by decide : ¬ strLit "POST" = strLit "GET")]
  · intro h1 h2 h3 h4 h5
    subst h1; subst h5
    simp [handleRequest, h2, h3, h4,
      (by decide : ¬ strLit "PUT" = strLit "OPTIONS"),
      (by decide : ¬ strLit "PUT" = strLit "DELETE")]

/-- C9 witness: malformed bodies on the POST and PUT routes are answered
400 without a query, and a parsing route is indeed POST or PUT. -/
theorem body_parsed_only_in_post_put_witness :
    handleRequest [] true (strLit "POST") apiPath ReqBody.malformed
      = ⟨400, [], false, true⟩ ∧
    handleRequest [] true (strLit "PUT") (strLit "/api/contacts/9")
        ReqBody.malformed = ⟨400, [], false, true⟩ ∧
    ((strLit "POST" = strLit "POST" ∧ apiPath = apiPath) ∨
      (strLit "POST" = strLit "PUT" ∧
        apiPathSlash.isPrefixOf apiPath = true ∧ ¬ apiPath = apiPath ∧
        ¬ lastSegment 47 apiPath = [])) :=
  ⟨(body_parsed_only_in_post_put [] true (strLit "POST") apiPath
      ReqBody.malformed).2.1 rfl rfl rfl,
    (body_parsed_only_in_post_put [] true (strLit "PUT")
      (strLit "/api/contacts/9") ReqBody.malformed).2.2 rfl (by decide)
      (by decide) (by decide) rfl,
    (body_parsed_only_in_post_put [] true (strLit "POST") apiPath
      (ReqBody.fields none none none none)).1 (by decide)⟩

/-- C5: for any input typed into the search box, the rendered list is
exactly the filter of the collection by the spec's case-insensitive
predicate (name/email lowered, phone raw); a term matching exactly one
record via its email renders exactly that record; a term matching no
record renders the empty list; and the Model's collection is untouched. -/
theorem search_renders_spec_filter (contacts : List Contact) (raw : Str) :
    (searchPipeline contacts raw).1
        = contacts.filter (specSearchMatches (viewSearchTerm raw)) ∧
    (searchPipeline contacts raw).2 = contacts ∧
    (∀ c ∈ contacts,
      strIncludes (toLowerStr c.email) (viewSearchTerm raw) = true →
      contacts.count c = 1 →
      (∀ d ∈ contacts, searchMatches (viewSearchTerm raw) d = true → d = c) →
      (searchPipeline contacts raw).1 = [c]) ∧
    ((∀ d ∈ contacts, searchMatches (viewSearchTerm raw) d = false) →
      (searchPipeline contacts raw).1 = []) := by
  have ht := viewSearchTerm_lower_fixed raw
  refine ⟨?_, rfl, ?_, ?_⟩
  · exact List.filter_congr fun c _ => searchMatches_eq_spec ht c
  · intro c hc hemail hcount huniq
    have hpc : searchMatches (viewSearchTerm raw) c = true := by
      simp [searchMatches, hemail]
    exact filter_eq_singleton_of_unique hc hpc hcount huniq
  · intro hnone
    exact List.filter_eq_nil_iff.mpr fun d hd => by simp [hnone d hd]

/-- C5 witness: in a two-contact collection, the raw input "NA@" (matched
case-insensitively, only by the first contact's email) renders exactly
that contact, and "zz" renders nothing. -/
theorem search_renders_spec_filter_witness :
    (searchPipeline
        [⟨strLit "1", strLit "Ana", strLit "ana@x.com", strLit "555"⟩,
         ⟨strLit "2", strLit "Bob", strLit "bob@y.com", strLit "667"⟩]
        (strLit "NA@")).1
      = [⟨strLit "1", strLit "Ana", strLit "ana@x.com", strLit "555"⟩] ∧
    (searchPipeline
        [⟨strLit "1", strLit "Ana", strLit "ana@x.com", strLit "555"⟩,
         ⟨strLit "2", strLit "Bob", strLit "bob@y.com", strLit "667"⟩]
        (strLit "zz")).1 = [] :=
  ⟨(search_renders_spec_filter
      [⟨strLit "1", strLit "Ana", strLit "ana@x.com", strLit "555"⟩,
       ⟨strLit "2", strLit "Bob", strLit "bob@y.com", strLit "667"⟩]
      (strLit "NA@")).2.2.1
      ⟨strLit "1", strLit "Ana", strLit "ana@x.com", strLit "555"⟩
      (by decide) (by decide) (by decide) (by decide),
    (search_renders_spec_filter
      [⟨strLit "1", strLit "Ana", strLit "ana@x.com", strLit "555"⟩,
       ⟨strLit "2", strLit "Bob", strLit "bob@y.com", strLit "667"⟩]
      (strLit "zz")).2.2.2 (by decide)⟩

/-- C10: the empty search term matches every contact (every string
includes the empty string), so the handler renders the full collection
unchanged, and the pipeline leaves the Model's collection as it was. -/
theorem search_empty_term_identity (contacts : List Contact) :
    handleSearchContact contacts [] = contacts ∧
    searchPipeline contacts [] = (contacts, contacts) := by
  have h1 : handleSearchContact contacts [] = contacts :=
    List.filter_eq_self.mpr fun c _ => by
      simp [searchMatches, strIncludes_nil]
  exact ⟨h1, by simp [searchPipeline, show viewSearchTerm [] = [] from rfl, h1]⟩

/-- C7: the Controller constructor renders `this.model.contacts`, which a
fresh Model initialises to the empty list — it never invokes
`fetchContacts`, so with a non-empty backend table the View shows the
empty list, not the backend collection (which the unused `fetchContacts`
would have delivered). -/
theorem controller_init_renders_empty_not_backend :
    controllerInitRender Model.initContacts = [] ∧
    ¬ controllerInitRender Model.initContacts
        = [⟨strLit "1", strLit "Ana", strLit "a@x.com", strLit "555"⟩] ∧
    (Model.fetchContacts Model.initContacts
        [⟨strLit "1", strLit "Ana", strLit "a@x.com", strLit "555"⟩]
        true).contacts
      = [⟨strLit "1", strLit "Ana", strLit "a@x.com", strLit "555"⟩] :=
  ⟨rfl, by decide, rfl⟩
